import Mathlib

/-!
Verification of the shortly-be URL shortener core.

Shallow embedding of:
  - the persistent store layer: internal/repository/url_repository.go together
    with the SQL schema (migrations: urls has short_code VARCHAR(10) UNIQUE,
    url_clicks references urls(id) ON DELETE CASCADE);
  - the cache collaborator: internal/cache/cache.go (Redis), treated as
    absent (nil), failing (every call errors) or a key/value map;
  - the URL service: internal/service/url_service.go;
  - the token-bucket rate limiter wired in internal/middleware (the bucket
    algorithm itself lives in the external golang.org/x/time/rate library and
    is modelled from the spec).

Timestamps are seconds since the Unix epoch, always UTC.
-/

namespace Shortly

/-- Equality of Except values is decidable componentwise. -/
instance {ε α : Type} [DecidableEq ε] [DecidableEq α] : DecidableEq (Except ε α) :=
  fun a b =>
    match a, b with
    | .error e, .error f => decidable_of_iff (e = f) (by simp)
    | .ok x, .ok y => decidable_of_iff (x = y) (by simp)
    | .error _, .ok _ => isFalse (by simp)
    | .ok _, .error _ => isFalse (by simp)

/-- One row of the urls table (internal/entities, URL struct; migration 00002
creates the table with short_code VARCHAR(10) UNIQUE NOT NULL). -/
structure URL where
  id : Nat
  shortCode : String
  originalURL : String
  userID : Option String
  clickCount : Nat
  createdAt : Nat
  expiresAt : Option Nat
deriving DecidableEq, Repr

/-- One row of the url_clicks table (migration 00003). -/
structure URLClick where
  urlId : Nat
  clickedAt : Nat
deriving DecidableEq, Repr

/-- The persistent store: urls rows, url_clicks rows, and the id sequence. -/
structure Store where
  rows : List URL
  clicks : List URLClick
  nextId : Nat
deriving DecidableEq, Repr

/-- All error values that the repository, the Postgres driver and the URL
service produce, one constructor per distinct Go error. -/
inductive Err where
  /-- repository FindByShortCode on sql.ErrNoRows. -/
  | notFoundOrExpired
  /-- Postgres unique-constraint violation on INSERT into urls. -/
  | uniqueViolation
  /-- Postgres 22001 for a short_code longer than VARCHAR(10). -/
  | valueTooLong
  /-- repository Delete with zero rows affected. -/
  | deleteNotFound
  /-- repository UpdateExpiresAt with zero rows affected. -/
  | updateNotFound
  /-- repository UpdateExpiresAt called without a user id. -/
  | userIDRequired
  /-- repository GetStats on sql.ErrNoRows. -/
  | statsNotFound
  /-- repository IncrementClickCount: SELECT id found no row. -/
  | incrementFindFailed
  /-- service validation: fewer than 3 characters. -/
  | codeTooShort
  /-- service validation: more than 20 characters. -/
  | codeTooLong
  /-- service validation: a character outside [a-zA-Z0-9_-]. -/
  | codeBadCharset
  /-- service validation: a reserved word. -/
  | codeReserved (c : String)
  /-- service: expiration time cannot be in the past. -/
  | pastExpiry
  /-- service: short code already taken (checked or insert race). -/
  | conflict (c : String)
  /-- service: 10 generation attempts exhausted. -/
  | exhausted
  /-- service wrapper around an availability-check failure. -/
  | availabilityCheckFailed (e : Err)
  /-- service wrapper around a non-conflict Create failure. -/
  | createFailed (e : Err)
deriving DecidableEq, Repr

/-- startsWith pat l decides whether pat is an initial segment of l. -/
def startsWith : List Char → List Char → Bool
  | [], _ => true
  | _ :: _, [] => false
  | a :: as, b :: bs => a == b && startsWith as bs

/-- containsSub pat l decides whether pat occurs inside l (strings.Contains). -/
def containsSub (pat : List Char) : List Char → Bool
  | [] => startsWith pat []
  | l@(_ :: rest) => startsWith pat l || containsSub pat rest

/-- strings.Contains on our String type. -/
def strContains (s pat : String) : Bool := containsSub pat.data s.data

/-- The Go error string of each error value (quotes inside messages omitted).
The service matches on these strings, never on Go error types. -/
def Err.msg : Err → String
  | .notFoundOrExpired => "URL not found or expired"
  | .uniqueViolation => "pq: duplicate key value violates unique constraint urls_short_code_key"
  | .valueTooLong => "pq: value too long for type character varying(10)"
  | .deleteNotFound => "URL not found or you do not have permission to delete it"
  | .updateNotFound => "URL not found or you do not have permission to update it"
  | .userIDRequired => "user ID required"
  | .statsNotFound => "URL not found"
  | .incrementFindFailed => "failed to find URL"
  | .codeTooShort => "short code must be at least 3 characters long"
  | .codeTooLong => "short code must be at most 20 characters long"
  | .codeBadCharset => "short code can only contain letters, numbers, hyphens, and underscores"
  | .codeReserved c => "short code " ++ c ++ " is reserved and cannot be used"
  | .pastExpiry => "expiration time cannot be in the past"
  | .conflict c => "short code " ++ c ++ " is already taken"
  | .exhausted => "failed to generate unique short code after 10 attempts"
  | .availabilityCheckFailed e => "failed to check short code availability: " ++ e.msg
  | .createFailed e => "failed to create URL: " ++ e.msg

namespace Repo

/-- The live filter of FindByShortCode:
expires_at IS NULL OR expires_at > (NOW() AT TIME ZONE UTC). -/
def isLive (now : Nat) (r : URL) : Bool :=
  match r.expiresAt with
  | none => true
  | some t => now < t

/-- FindByShortCode: the first row with this code that is not expired;
sql.ErrNoRows becomes the error URL not found or expired. -/
def FindByShortCode (s : Store) (now : Nat) (code : String) : Except Err URL :=
  match s.rows.find? (fun r => r.shortCode == code && isLive now r) with
  | some r => .ok r
  | none => .error .notFoundOrExpired

/-- Create: INSERT INTO urls ... RETURNING. Postgres rejects a code longer
than VARCHAR(10) (by character count) before the unique constraint, which
holds regardless of expiry state. click_count starts at 0. -/
def Create (s : Store) (now : Nat) (code url : String) (userID : Option String)
    (expiresAt : Option Nat) : Except Err (URL × Store) :=
  if code.length > 10 then .error .valueTooLong
  else if s.rows.any (fun r => r.shortCode == code) then .error .uniqueViolation
  else
    let row : URL :=
      { id := s.nextId, shortCode := code, originalURL := url, userID := userID,
        clickCount := 0, createdAt := now, expiresAt := expiresAt }
    .ok (row, { rows := s.rows ++ [row], clicks := s.clicks, nextId := s.nextId + 1 })

/-- IncrementClickCount: SELECT id by code (no expiry filter), then
UPDATE click_count = click_count + 1, then INSERT INTO url_clicks with
clicked_at = NOW() UTC. -/
def IncrementClickCount (s : Store) (now : Nat) (code : String) : Except Err Store :=
  match s.rows.find? (fun r => r.shortCode == code) with
  | none => .error .incrementFindFailed
  | some r =>
    let rows := s.rows.map fun x =>
      if x.shortCode == code then { x with clickCount := x.clickCount + 1 } else x
    .ok { s with rows := rows, clicks := s.clicks ++ [{ urlId := r.id, clickedAt := now }] }

/-- Delete: DELETE FROM urls WHERE short_code = $1 [AND user_id = $2];
zero rows affected is an error. url_clicks rows go away through
ON DELETE CASCADE. -/
def Delete (s : Store) (code : String) (userID : Option String) : Except Err Store :=
  let gone : URL → Bool := fun r =>
    r.shortCode == code &&
      (match userID with
       | some u => r.userID == some u
       | none => true)
  let rows := s.rows.filter fun r => !gone r
  if rows.length == s.rows.length then .error .deleteNotFound
  else
    let goneIds := (s.rows.filter gone).map (fun r => r.id)
    .ok { rows := rows,
          clicks := s.clicks.filter (fun c => !goneIds.contains c.urlId),
          nextId := s.nextId }

/-- GetStats: SELECT by code (expired rows included), restricted to the
owner when a user id is given. -/
def GetStats (s : Store) (code : String) (userID : Option String) : Except Err URL :=
  let pick : URL → Bool := fun r =>
    r.shortCode == code &&
      (match userID with
       | some u => r.userID == some u
       | none => true)
  match s.rows.find? pick with
  | some r => .ok r
  | none => .error .statsNotFound

/-- UpdateExpiresAt: requires a user id; UPDATE expires_at WHERE
short_code = $2 AND user_id = $3; zero rows affected is an error. -/
def UpdateExpiresAt (s : Store) (code : String) (userID : Option String)
    (expiresAt : Option Nat) : Except Err Store :=
  match userID with
  | none => .error .userIDRequired
  | some u =>
    if s.rows.any (fun r => r.shortCode == code && r.userID == some u) then
      .ok { s with rows := s.rows.map fun r =>
              if r.shortCode == code && r.userID == some u then
                { r with expiresAt := expiresAt }
              else r }
    else .error .updateNotFound

/-- The GROUP BY expression of GetClickAnalytics: the bucket start of a
click timestamp for the given lookback, from the SQL in
url_repository.go (10 min for at most 6 h, 30 min for at most 12 h,
1 h for at most 24 h, 6 h for at most 72 h, else 1 day; boundaries on
calendar units via DATE_TRUNC, all UTC). -/
def bucketStart (hours : Nat) (t : Nat) : Nat :=
  if hours ≤ 6 then (t - t % 3600) + 600 * (t % 3600 / 60 / 10)
  else if hours ≤ 12 then (t - t % 3600) + 1800 * (t % 3600 / 60 / 30)
  else if hours ≤ 24 then t - t % 3600
  else if hours ≤ 72 then (t - t % 86400) + 21600 * (t % 86400 / 3600 / 6)
  else t - t % 86400

/-- Ascending insertion without duplicates (the sorted distinct keys that
GROUP BY together with ORDER BY ASC produce). -/
def insertAsc (x : Nat) : List Nat → List Nat
  | [] => [x]
  | y :: ys => if x < y then x :: y :: ys else if x == y then y :: ys else y :: insertAsc x ys

/-- GetClickAnalytics: click rows of this url with
clicked_at >= NOW() - hours, grouped by bucketStart, counted, ordered
ascending by bucket; buckets without a row never appear. -/
def GetClickAnalytics (s : Store) (now : Nat) (urlID : Nat) (hours : Nat) :
    List (Nat × Nat) :=
  let cutoff := now - hours * 3600
  let bs := (s.clicks.filter fun c =>
    c.urlId == urlID && decide (cutoff ≤ c.clickedAt)).map fun c =>
      bucketStart hours c.clickedAt
  (bs.foldr insertAsc []).map fun b => (b, (bs.filter (fun x => x == b)).length)

end Repo

/-- A cached value: either a plain string (the shortcode:exists sentinels
hold "taken" or "available") or the JSON document that SetJSON writes for
a url: key, holding original_url and the expires_at snapshot. -/
inductive CVal where
  | str (v : String)
  | res (url : String) (expiresAt : Option Nat)
deriving DecidableEq, Repr

/-- Cache entries. Entry TTLs (30 s for available sentinels, 1 h for taken
sentinels and resolutions) govern Redis-side expiry, an external behavior;
no claim here depends on a cache entry expiring, so TTLs are not tracked. -/
abbrev CMap := List (String × CVal)

/-- The cache collaborator as the service sees it: not configured (the nil
cache of NewURLService), configured but failing on every call (Redis down),
or a working key/value map. -/
inductive CacheB where
  | absent
  | failing
  | real (m : CMap)
deriving DecidableEq, Repr

/-- Set (and SetJSON): replace the value under a key. A nil cache is never
called; a failing call has its error discarded by every call site. -/
def cacheSet (cb : CacheB) (k : String) (v : CVal) : CacheB :=
  match cb with
  | .real m => .real ((k, v) :: m.filter fun e => e.1 != k)
  | _ => cb

/-- Delete: remove a key. Errors of a failing cache are discarded. -/
def cacheDelete (cb : CacheB) (k : String) : CacheB :=
  match cb with
  | .real m => .real (m.filter fun e => e.1 != k)
  | _ => cb

/-- The value stored under a key, if the cache is working and holds one. -/
def cacheLookup (cb : CacheB) (k : String) : Option CVal :=
  match cb with
  | .real m => (m.find? (fun e => e.1 == k)).map fun e => e.2
  | _ => none

/-- Key of the availability sentinel of a code. -/
def sentinelKey (code : String) : String := "shortcode:exists:" ++ code

/-- Key of the cached resolution of a code. -/
def urlKey (code : String) : String := "url:" ++ code

/-- State of the URL service: the persistent store plus the cache. -/
structure SvcState where
  store : Store
  cache : CacheB
deriving DecidableEq, Repr

namespace Service

/-- The reserved short codes of url_service.go. -/
def reservedCodes : List String :=
  ["admin", "api", "www", "mail", "ftp", "localhost", "health", "auth",
   "login", "register", "signin", "signup", "signout", "logout", "shorten",
   "urls", "url", "stats", "analytics", "redirect"]

/-- A character allowed by the regexp [a-zA-Z0-9_-], by code point:
97-122 is a-z, 65-90 is A-Z, 48-57 is 0-9, 95 is the underscore, 45 the
hyphen. -/
def isCodeChar (c : Char) : Bool :=
  (97 ≤ c.toNat && c.toNat ≤ 122) || (65 ≤ c.toNat && c.toNat ≤ 90) ||
    (48 ≤ c.toNat && c.toNat ≤ 57) || c.toNat == 95 || c.toNat == 45

/-- strings.ToLower restricted to ASCII, all our comparands are ASCII. -/
def lowerStr (s : String) : String := String.mk (s.data.map Char.toLower)

/-- validateCustomShortCode: length 3..20 in bytes (Go len), then the
charset regexp, then the case-insensitive reserved-word check. Returns the
error, or none when the code is acceptable. -/
def validateCustomShortCode (s : String) : Option Err :=
  if s.utf8ByteSize < 3 then some .codeTooShort
  else if s.utf8ByteSize > 20 then some .codeTooLong
  else if s.data.isEmpty || !s.data.all isCodeChar then some .codeBadCharset
  else if reservedCodes.contains (lowerStr s) then some (.codeReserved s)
  else none

/-- Whitespace for strings.TrimSpace, by code point: space, tab, newline,
carriage return, vertical tab, form feed, NEL (133) and NBSP (160); the
repository never feeds other Unicode space characters through it. -/
def goIsSpace (c : Char) : Bool :=
  c.toNat == 32 || c.toNat == 9 || c.toNat == 10 || c.toNat == 13 ||
    c.toNat == 11 || c.toNat == 12 || c.toNat == 133 || c.toNat == 160

/-- strings.TrimSpace: drop whitespace from both ends. -/
def trimSpace (s : String) : String :=
  String.mk (((s.data.dropWhile goIsSpace).reverse.dropWhile goIsSpace).reverse)

/-- The URL-safe base64 alphabet of encoding/base64.URLEncoding. -/
def b64urlAlphabet : String :=
  "ABCDEFGHIJKLMNOPQRSTUVWXYZabcdefghijklmnopqrstuvwxyz0123456789-_"

/-- The alphabet character of a 6-bit value. -/
def b64Char (n : Nat) : Char := b64urlAlphabet.data.getD (n % 64) 'A'

/-- A character of the URL-safe base64 alphabet, by code point. -/
def isB64UrlChar (c : Char) : Bool :=
  (65 ≤ c.toNat && c.toNat ≤ 90) || (97 ≤ c.toNat && c.toNat ≤ 122) ||
    (48 ≤ c.toNat && c.toNat ≤ 57) || c.toNat == 45 || c.toNat == 95

/-- generateShortCode: URL-safe base64 of 6 random bytes (8 characters,
no padding), truncated to the first 8 characters. The caller provides the
bytes that crypto/rand.Read produced. -/
def generateShortCode (bytes : List Nat) : String :=
  let b : Nat → Nat := fun i => bytes.getD i 0 % 256
  let chars : List Char :=
    [b64Char (b 0 / 4), b64Char (b 0 % 4 * 16 + b 1 / 16),
     b64Char (b 1 % 16 * 4 + b 2 / 64), b64Char (b 2 % 64),
     b64Char (b 3 / 4), b64Char (b 3 % 4 * 16 + b 4 / 16),
     b64Char (b 4 % 16 * 4 + b 5 / 64), b64Char (b 5 % 64)]
  String.mk (chars.take 8)

/-- checkShortCodeAvailability: ask the cache sentinel first (a failing
Exists or Get falls through, a taken sentinel answers unavailable), then
the store; an available answer writes an available sentinel (30 s), a
taken answer writes a taken sentinel (1 h). -/
def checkShortCodeAvailability (st : SvcState) (now : Nat) (code : String) :
    Except Err Bool × SvcState :=
  let key := sentinelKey code
  let takenInCache : Bool :=
    match st.cache with
    | .absent => false
    | .failing => false
    | .real m =>
      if m.any (fun e => e.1 == key) then
        match (m.find? (fun e => e.1 == key)).map (fun e => e.2) with
        | some (CVal.str v) => v == "taken"
        | _ => false
      else false
  if takenInCache then (.ok false, st)
  else
    match Repo.FindByShortCode st.store now code with
    | .error e =>
      if e.msg == Err.notFoundOrExpired.msg then
        (.ok true, { st with cache := cacheSet st.cache key (.str ("available")) })
      else (.error e, st)
    | .ok _ => (.ok false, { st with cache := cacheSet st.cache key (.str ("taken")) })

/-- The generation loop of CreateShortURL: up to `remaining` further
attempts (10 at the start), attempt index i; an unavailable code retries,
exhausting all attempts is the AllocationExhausted error. -/
def genLoop (now : Nat) (rnd : Nat → List Nat) :
    Nat → Nat → SvcState → Except Err String × SvcState
  | 0, _, st => (.error .exhausted, st)
  | remaining + 1, i, st =>
    let code := generateShortCode (rnd i)
    match checkShortCodeAvailability st now code with
    | (.error e, st') => (.error (.availabilityCheckFailed e), st')
    | (.ok true, st') => (.ok code, st')
    | (.ok false, st') => genLoop now rnd remaining (i + 1) st'

/-- The request body for creating a short URL (models.CreateURLRequest). -/
structure CreateURLRequest where
  url : String
  expiresAt : Option Nat
  shortCode : Option String
deriving DecidableEq, Repr

/-- models.CreateURLResponse. -/
structure CreateURLResponse where
  shortCode : String
  originalURL : String
  shortURL : String
  expiresAt : Option Nat
  createdAt : Nat
deriving DecidableEq, Repr

/-- expiresAt.Before(now minus the 2-second clock-skew allowance). -/
def expPast (e : Option Nat) (now : Nat) : Bool :=
  match e with
  | none => false
  | some t => t + 2 < now

/-- The code-selection stage of CreateShortURL: a non-empty custom code is
trimmed, validated and availability-checked; otherwise codes are
generated. -/
def pickShortCode (st : SvcState) (now : Nat) (rnd : Nat → List Nat)
    (sc : Option String) : Except Err String × SvcState :=
  match sc with
  | some s =>
    if s == "" then genLoop now rnd 10 0 st
    else
      let customCode := trimSpace s
      match validateCustomShortCode customCode with
      | some e => (.error e, st)
      | none =>
        match checkShortCodeAvailability st now customCode with
        | (.error e, st') => (.error (.availabilityCheckFailed e), st')
        | (.ok false, st') => (.error (.conflict customCode), st')
        | (.ok true, st') => (.ok customCode, st')
  | none => genLoop now rnd 10 0 st

/-- CreateShortURL: reject a past expiry, pick the short code, insert the
row; an insert failure whose message mentions unique or duplicate marks
the sentinel taken and is the conflict error; on success both the taken
sentinel and the cached resolution are written. -/
def CreateShortURL (st : SvcState) (now : Nat) (rnd : Nat → List Nat)
    (req : CreateURLRequest) (userID : Option String) (baseURL : String) :
    Except Err CreateURLResponse × SvcState :=
  if expPast req.expiresAt now then (.error .pastExpiry, st)
  else
    match pickShortCode st now rnd req.shortCode with
    | (.error e, st') => (.error e, st')
    | (.ok code, st') =>
      match Repo.Create st'.store now code req.url userID req.expiresAt with
      | .error e =>
        if strContains e.msg ("unique") || strContains e.msg ("duplicate") then
          (.error (.conflict code),
           { st' with cache := cacheSet st'.cache (sentinelKey code) (.str ("taken")) })
        else (.error (.createFailed e), st')
      | .ok (row, store') =>
        let c1 := cacheSet st'.cache (sentinelKey code) (.str ("taken"))
        let c2 := cacheSet c1 (urlKey code) (.res row.originalURL row.expiresAt)
        (.ok { shortCode := row.shortCode, originalURL := row.originalURL,
               shortURL := baseURL ++ "/" ++ row.shortCode,
               expiresAt := row.expiresAt, createdAt := row.createdAt },
         { store := store', cache := c2 })

/-- The fire-and-forget goroutine of the cache-hit path of GetOriginalURL,
run to completion (one admissible schedule); its error is only logged. -/
def recordClick (s : Store) (now : Nat) (code : String) : Store :=
  match Repo.IncrementClickCount s now code with
  | .ok s' => s'
  | .error _ => s

/-- The store path of GetOriginalURL: find the live row, repopulate the
cached resolution, increment the click count synchronously (a failure is
logged, the redirect still succeeds). -/
def resolveFromStore (st : SvcState) (now : Nat) (code : String) :
    Except Err String × SvcState :=
  match Repo.FindByShortCode st.store now code with
  | .error e => (.error e, st)
  | .ok row =>
    let cache' := cacheSet st.cache (urlKey code) (.res row.originalURL row.expiresAt)
    let store' :=
      match Repo.IncrementClickCount st.store now code with
      | .ok s' => s'
      | .error _ => st.store
    (.ok row.originalURL, { store := store', cache := cache' })

/-- GetOriginalURL: try the cached resolution first; an expired snapshot is
evicted and the store consulted; a valid snapshot answers immediately and
records the click in a goroutine; absent entries, an empty cached URL, a
nil cache and a failing GetJSON all fall back to the store. -/
def GetOriginalURL (st : SvcState) (now : Nat) (code : String) :
    Except Err String × SvcState :=
  match st.cache with
  | .real m =>
    match (m.find? (fun e => e.1 == urlKey code)).map (fun e => e.2) with
    | some (CVal.res u exp) =>
      if u == "" then resolveFromStore st now code
      else
        match exp with
        | some e =>
          if e < now then
            resolveFromStore { st with cache := cacheDelete st.cache (urlKey code) } now code
          else (.ok u, { st with store := recordClick st.store now code })
        | none => (.ok u, { st with store := recordClick st.store now code })
    | _ => resolveFromStore st now code
  | _ => resolveFromStore st now code

/-- models.URLStatsResponse. -/
structure URLStatsResponse where
  shortCode : String
  originalURL : String
  clickCount : Nat
  createdAt : Nat
  expiresAt : Option Nat
deriving DecidableEq, Repr

/-- GetURLStats: a plain read through the repository, no cache. -/
def GetURLStats (st : SvcState) (code : String) (userID : Option String) :
    Except Err URLStatsResponse × SvcState :=
  match Repo.GetStats st.store code userID with
  | .error e => (.error e, st)
  | .ok url =>
    (.ok { shortCode := url.shortCode, originalURL := url.originalURL,
           clickCount := url.clickCount, createdAt := url.createdAt,
           expiresAt := url.expiresAt }, st)

/-- DeleteURL: delete through the repository; on success (and only then)
evict both the cached resolution and the sentinel, errors of the cache
deletes being discarded. -/
def DeleteURL (st : SvcState) (code : String) (userID : Option String) :
    Except Err Unit × SvcState :=
  match Repo.Delete st.store code userID with
  | .error e => (.error e, st)
  | .ok store' =>
    let c := cacheDelete (cacheDelete st.cache (urlKey code)) (sentinelKey code)
    (.ok (), { store := store', cache := c })

/-- UpdateExpiresAt: reject a past expiry, then update through the
repository. The cache is not touched. -/
def UpdateExpiresAt (st : SvcState) (now : Nat) (code : String)
    (userID : Option String) (expiresAt : Option Nat) :
    Except Err Unit × SvcState :=
  if expPast expiresAt now then (.error .pastExpiry, st)
  else
    match Repo.UpdateExpiresAt st.store code userID expiresAt with
    | .error e => (.error e, st)
    | .ok store' => (.ok (), { st with store := store' })

end Service

namespace RateLimiter

/-- Limiter configuration: requests per second and burst
(middleware.NewRateLimiter). Tokens are exact rationals, standing in for
the float tokens of the bucket. -/
structure LimiterCfg where
  ratePerSecond : ℚ
  burst : ℚ
deriving DecidableEq, Repr

/-- One per-client bucket (the ClientBucket of the spec; the visitor struct
holds it inside the external rate.Limiter). -/
structure ClientBucket where
  tokensRemaining : ℚ
  lastRefillTime : ℚ
deriving DecidableEq, Repr

/-- Modelled from the spec: the Allow decision of the token bucket that
getVisitor and LimitMiddleware delegate to the external
golang.org/x/time/rate library (not part of this repository). An absent
bucket is created with full burst; each call refills
elapsed * ratePerSecond tokens capped at burst, then allows and consumes
one token when at least one is present, else denies. -/
def allow (cfg : LimiterCfg) (b : Option ClientBucket) (now : ℚ) :
    Bool × ClientBucket :=
  let b0 := b.getD { tokensRemaining := cfg.burst, lastRefillTime := now }
  let tokens := min (b0.tokensRemaining + (now - b0.lastRefillTime) * cfg.ratePerSecond) cfg.burst
  if 1 ≤ tokens then (true, { tokensRemaining := tokens - 1, lastRefillTime := now })
  else (false, { tokensRemaining := tokens, lastRefillTime := now })

/-- A sequence of Allow calls of one identity at the given instants. -/
def allowSeq (cfg : LimiterCfg) : Option ClientBucket → List ℚ → List Bool
  | _, [] => []
  | b, t :: ts =>
    let r := allow cfg b t
    r.1 :: allowSeq cfg (some r.2) ts

end RateLimiter

section Claims

open Service

/-- A store that never generates ids and holds nothing. -/
def emptyStore : Store := { rows := [], clicks := [], nextId := 1 }

/-- A byte stream for generation paths that are never taken or whose bytes
are all zero. -/
def rnd0 : Nat → List Nat := fun _ => []

/-- A store with one live link abc owned by u1, expiring at 1000. -/
def c1Store : Store :=
  { rows := [{ id := 1, shortCode := "abc", originalURL := "https://example.com",
               userID := some ("u1"), clickCount := 0, createdAt := 0,
               expiresAt := some 1000 }],
    clicks := [], nextId := 2 }

/-- A cache holding both the cached resolution and the taken sentinel of
abc, as resolution and allocation leave it. -/
def c1Cache : CacheB :=
  .real [(urlKey ("abc"), CVal.res ("https://example.com") (some 1000)),
         (sentinelKey ("abc"), CVal.str ("taken"))]

/-- C1: a successful expiry update through UpdateExpiresAt with a cache
configured evicts neither the cached resolution nor the sentinel of the
code: the update succeeds, the store row now expires at 500, and the
cache still holds both entries unchanged. This refutes the claim that
both entries are evicted. -/
theorem c1_update_expiry_leaves_cache_entries :
    (Service.UpdateExpiresAt ⟨c1Store, c1Cache⟩ 0 ("abc") (some ("u1")) (some 500)).1
      = .ok ()
    ∧ (Service.UpdateExpiresAt ⟨c1Store, c1Cache⟩ 0 ("abc") (some ("u1")) (some 500)).2.cache
      = c1Cache
    ∧ ((Service.UpdateExpiresAt ⟨c1Store, c1Cache⟩ 0 ("abc") (some ("u1")) (some 500)).2.store.rows.map
        fun r => r.expiresAt) = [some 500] := by
  decide

/-- C2: the custom code abcdefghijkl (12 characters, charset-valid, not
reserved) passes validateCustomShortCode, yet its first allocation on an
empty store does not succeed: the INSERT dies on the VARCHAR(10) column
and CreateShortURL returns the wrapped store error, not a created link
and not a conflict. -/
theorem c2_valid_long_code_first_allocation_fails :
    Service.validateCustomShortCode ("abcdefghijkl") = none
    ∧ (Service.CreateShortURL ⟨emptyStore, .absent⟩ 0 rnd0
        ⟨"https://example.com", none, some ("abcdefghijkl")⟩ none ("https://sho.rt")).1
      = .error (.createFailed .valueTooLong) := by
  decide

/-- Midnight UTC of 2024-01-01 in seconds since the Unix epoch. -/
def t0 : Nat := 19723 * 86400

/-- Clicks of link 7 at 2024-01-01 10:05:00Z, 10:07:00Z and 10:32:00Z. -/
def c4Store : Store :=
  { rows := [], nextId := 1,
    clicks := [{ urlId := 7, clickedAt := t0 + 36300 },
               { urlId := 7, clickedAt := t0 + 36420 },
               { urlId := 7, clickedAt := t0 + 37920 }] }

/-- C4: with lookbackHours = 6 queried at 12:00:00Z, the analytics of
link 7 are exactly the buckets 10:00:00Z with count 2 and 10:30:00Z with
count 1, ascending, with no further bucket. -/
theorem c4_bucketing_literal_case :
    Repo.GetClickAnalytics c4Store (t0 + 43200) 7 6
      = [(t0 + 36000, 2), (t0 + 37800, 1)] := by
  decide

/-- C6: token bucket with rate 2 per second and burst 5, starting from an
absent bucket: six calls at instant 0 are allowed exactly five times then
denied, and after 0.5 s exactly one further call is allowed (an eighth at
the same instant is denied again). -/
theorem c6_token_bucket_rate2_burst5 :
    RateLimiter.allowSeq ⟨2, 5⟩ none [0, 0, 0, 0, 0, 0, (1 : ℚ)/2, (1 : ℚ)/2]
      = [true, true, true, true, true, false, true, false] := by
  norm_num [RateLimiter.allowSeq, RateLimiter.allow, min_def]

end Claims

section Degradation

open Service

/-- The outcome a caller can observe of a service call: the returned value
or error, and the persistent store it leaves behind. -/
def obs {α : Type} (p : Except Err α × SvcState) : Except Err α × Store :=
  (p.1, p.2.store)

/-- A cache that is not configured or is entirely unavailable. -/
def CacheB.degraded (cb : CacheB) : Prop := cb = .absent ∨ cb = .failing

@[simp] theorem cacheSet_absent (k : String) (v : CVal) :
    cacheSet .absent k v = .absent := rfl

@[simp] theorem cacheSet_failing (k : String) (v : CVal) :
    cacheSet .failing k v = .failing := rfl

@[simp] theorem cacheDelete_absent (k : String) : cacheDelete .absent k = .absent := rfl

@[simp] theorem cacheDelete_failing (k : String) : cacheDelete .failing k = .failing := rfl

/-- The cache-free availability answer: available exactly when the store
has no live row with the code. -/
def storeAvailability (store : Store) (now : Nat) (code : String) : Except Err Bool :=
  match Repo.FindByShortCode store now code with
  | .error _ => .ok true
  | .ok _ => .ok false

/-- With a degraded cache, checkShortCodeAvailability answers from the
store alone and leaves the state unchanged. -/
theorem check_degraded (store : Store) (now : Nat) (code : String) (cb : CacheB)
    (h : cb.degraded) :
    checkShortCodeAvailability ⟨store, cb⟩ now code
      = (storeAvailability store now code, ⟨store, cb⟩) := by
  rcases h with h | h <;> subst h <;>
    unfold checkShortCodeAvailability storeAvailability <;>
    cases hf : store.rows.find? (fun r => r.shortCode == code && Repo.isLive now r) <;>
    simp [Repo.FindByShortCode, hf, Err.msg]

/-- The cache-free generation loop result. -/
def storeGenLoop (store : Store) (now : Nat) (rnd : Nat → List Nat) :
    Nat → Nat → Except Err String
  | 0, _ => .error .exhausted
  | remaining + 1, i =>
    let code := generateShortCode (rnd i)
    match storeAvailability store now code with
    | .error e => .error (.availabilityCheckFailed e)
    | .ok true => .ok code
    | .ok false => storeGenLoop store now rnd remaining (i + 1)

/-- With a degraded cache, the generation loop answers from the store
alone and leaves the state unchanged. -/
theorem genLoop_degraded (store : Store) (now : Nat) (rnd : Nat → List Nat)
    (cb : CacheB) (h : cb.degraded) :
    ∀ remaining i, genLoop now rnd remaining i ⟨store, cb⟩
      = (storeGenLoop store now rnd remaining i, ⟨store, cb⟩) := by
  intro remaining
  induction remaining with
  | zero => intro i; rfl
  | succ n ih =>
    intro i
    unfold genLoop storeGenLoop
    simp only [check_degraded store now _ cb h]
    cases ha : storeAvailability store now (generateShortCode (rnd i)) with
    | error e => simp [ha]
    | ok b => cases b <;> simp [ha, ih]

/-- The cache-free code-selection result. -/
def storePickShortCode (store : Store) (now : Nat) (rnd : Nat → List Nat) :
    Option String → Except Err String
  | some s =>
    if s == "" then storeGenLoop store now rnd 10 0
    else
      let customCode := trimSpace s
      match validateCustomShortCode customCode with
      | some e => .error e
      | none =>
        match storeAvailability store now customCode with
        | .error e => .error (.availabilityCheckFailed e)
        | .ok false => .error (.conflict customCode)
        | .ok true => .ok customCode
  | none => storeGenLoop store now rnd 10 0

/-- With a degraded cache, code selection answers from the store alone and
leaves the state unchanged. -/
theorem pick_degraded (store : Store) (now : Nat) (rnd : Nat → List Nat)
    (sc : Option String) (cb : CacheB) (h : cb.degraded) :
    pickShortCode ⟨store, cb⟩ now rnd sc
      = (storePickShortCode store now rnd sc, ⟨store, cb⟩) := by
  cases sc with
  | none => exact genLoop_degraded store now rnd cb h 10 0
  | some s =>
    by_cases hs : s = ""
    · subst hs
      simp [pickShortCode, storePickShortCode,
        genLoop_degraded store now rnd cb h 10 0]
    · have hs' : (s == "") = false := by simp [hs]
      cases hv : validateCustomShortCode (trimSpace s) with
      | some e => simp [pickShortCode, storePickShortCode, hs', hv]
      | none =>
        simp only [pickShortCode, storePickShortCode, hs', Bool.false_eq_true,
          if_false, hv, check_degraded store now _ cb h]
        cases ha : storeAvailability store now (trimSpace s) with
        | error e => simp [ha]
        | ok b => cases b <;> simp [ha]

/-- Allocation observes identically under a nil cache and a failing cache. -/
theorem create_degraded (store : Store) (now : Nat) (rnd : Nat → List Nat)
    (req : CreateURLRequest) (uid : Option String) (base : String) :
    obs (CreateShortURL ⟨store, .absent⟩ now rnd req uid base)
      = obs (CreateShortURL ⟨store, .failing⟩ now rnd req uid base) := by
  unfold CreateShortURL
  cases hexp : expPast req.expiresAt now
  · simp only [pick_degraded store now rnd req.shortCode _ (Or.inl rfl),
      pick_degraded store now rnd req.shortCode _ (Or.inr rfl),
      Bool.false_eq_true, if_false]
    cases hp : storePickShortCode store now rnd req.shortCode with
    | error e => simp [hp, obs]
    | ok code =>
      simp only [hp]
      cases hc : Repo.Create store now code req.url uid req.expiresAt with
      | error e =>
        cases hcond : (strContains e.msg ("unique") || strContains e.msg ("duplicate")) <;>
          simp [hc, hcond, obs]
      | ok p => simp [hc, obs]
  · simp [hexp, obs]

/-- Resolution observes identically under a nil cache and a failing cache. -/
theorem resolve_degraded (store : Store) (now : Nat) (code : String) :
    obs (GetOriginalURL ⟨store, .absent⟩ now code)
      = obs (GetOriginalURL ⟨store, .failing⟩ now code) := by
  unfold GetOriginalURL resolveFromStore
  cases hf : Repo.FindByShortCode store now code with
  | error e => simp [hf, obs]
  | ok row => simp [hf, obs]

/-- Stats observe identically under a nil cache and a failing cache. -/
theorem stats_degraded (store : Store) (code : String) (uid : Option String) :
    obs (GetURLStats ⟨store, .absent⟩ code uid)
      = obs (GetURLStats ⟨store, .failing⟩ code uid) := by
  unfold GetURLStats
  cases h : Repo.GetStats store code uid <;> simp [h, obs]

/-- Deletion observes identically under a nil cache and a failing cache. -/
theorem delete_degraded (store : Store) (code : String) (uid : Option String) :
    obs (DeleteURL ⟨store, .absent⟩ code uid)
      = obs (DeleteURL ⟨store, .failing⟩ code uid) := by
  unfold DeleteURL
  cases h : Repo.Delete store code uid <;> simp [h, obs]

/-- Expiry update observes identically under a nil cache and a failing
cache. -/
theorem update_degraded (store : Store) (now : Nat) (code : String)
    (uid : Option String) (exp : Option Nat) :
    obs (UpdateExpiresAt ⟨store, .absent⟩ now code uid exp)
      = obs (UpdateExpiresAt ⟨store, .failing⟩ now code uid exp) := by
  unfold UpdateExpiresAt
  cases hexp : expPast exp now
  · cases h : Repo.UpdateExpiresAt store code uid exp <;> simp [hexp, h, obs]
  · simp [hexp, obs]

/-- C7: for every operation of the URL service (allocate, resolve, stats,
delete, update expiry) and every input, running with no cache configured
(the nil cache) observes identically to running with a cache whose every
call fails: the same returned value or error and the same resulting
persistent store. -/
theorem c7_nil_cache_equals_failing_cache (store : Store) (now : Nat)
    (rnd : Nat → List Nat) (req : CreateURLRequest) (uid : Option String)
    (base code : String) (exp : Option Nat) :
    obs (CreateShortURL ⟨store, .absent⟩ now rnd req uid base)
      = obs (CreateShortURL ⟨store, .failing⟩ now rnd req uid base)
    ∧ obs (GetOriginalURL ⟨store, .absent⟩ now code)
      = obs (GetOriginalURL ⟨store, .failing⟩ now code)
    ∧ obs (GetURLStats ⟨store, .absent⟩ code uid)
      = obs (GetURLStats ⟨store, .failing⟩ code uid)
    ∧ obs (DeleteURL ⟨store, .absent⟩ code uid)
      = obs (DeleteURL ⟨store, .failing⟩ code uid)
    ∧ obs (UpdateExpiresAt ⟨store, .absent⟩ now code uid exp)
      = obs (UpdateExpiresAt ⟨store, .failing⟩ now code uid exp) :=
  ⟨create_degraded store now rnd req uid base,
   resolve_degraded store now code,
   stats_degraded store code uid,
   delete_degraded store code uid,
   update_degraded store now code uid exp⟩

end Degradation

section Generation

open Service

/-- storeAvailability never fails: it answers available or taken. -/
theorem storeAvailability_total (store : Store) (now : Nat) (code : String) :
    storeAvailability store now code = .ok true
      ∨ storeAvailability store now code = .ok false := by
  unfold storeAvailability
  cases h : Repo.FindByShortCode store now code <;> simp

/-- The generation loop exhausts exactly when every remaining generated
code is unavailable. -/
theorem storeGenLoop_exhausted_iff (store : Store) (now : Nat) (rnd : Nat → List Nat) :
    ∀ remaining i,
      (storeGenLoop store now rnd remaining i = .error .exhausted)
        ↔ ∀ j < remaining,
            storeAvailability store now (generateShortCode (rnd (i + j))) = .ok false := by
  intro remaining
  induction remaining with
  | zero => intro i; simp [storeGenLoop]
  | succ n ih =>
    intro i
    unfold storeGenLoop
    cases ha : storeAvailability store now (generateShortCode (rnd i)) with
    | error e =>
      simp only [ha]
      constructor
      · intro h; exact absurd h (by simp)
      · intro h
        have h0 := h 0 (by omega)
        rw [Nat.add_zero] at h0
        rw [ha] at h0
        exact absurd h0 (by simp)
    | ok b =>
      cases b with
      | true =>
        simp only [ha]
        constructor
        · intro h; simp at h
        · intro h
          have h0 := h 0 (by omega)
          rw [Nat.add_zero] at h0
          rw [ha] at h0
          simp at h0
      | false =>
        simp only [ha, ih (i + 1)]
        constructor
        · intro h j hj
          cases j with
          | zero => simpa using ha
          | succ k =>
            have hk := h k (by omega)
            have e2 : i + 1 + k = i + (k + 1) := by omega
            rwa [e2] at hk
        · intro h k hk
          have hk1 := h (k + 1) (by omega)
          have e2 : i + (k + 1) = i + 1 + k := by omega
          rwa [e2] at hk1

/-- Every character the 6-bit encoder emits lies in the URL-safe base64
alphabet. -/
theorem isB64_b64Char (n : Nat) : isB64UrlChar (b64Char n) = true := by
  have h : n % 64 < 64 := Nat.mod_lt _ (by norm_num)
  have hall : ∀ m : Fin 64,
      isB64UrlChar (b64urlAlphabet.data.getD m.val 'A') = true := by decide
  simpa [b64Char] using hall ⟨n % 64, h⟩

/-- C9: on the generation path (no custom code), CreateShortURL returns
the AllocationExhausted error exactly when all 10 generated codes were
unavailable in the store; and every generated code is the URL-safe base64
encoding of the 6 provided random bytes truncated to 8 characters: length
8 over the URL-safe alphabet. -/
theorem c9_generation_exhaustion (store : Store) (now : Nat) (rnd : Nat → List Nat)
    (url base : String) (uid : Option String) :
    ((Service.CreateShortURL ⟨store, .absent⟩ now rnd ⟨url, none, none⟩ uid base).1
        = .error .exhausted
      ↔ ∀ i < 10,
          storeAvailability store now (Service.generateShortCode (rnd i)) = .ok false)
    ∧ ∀ bytes : List Nat, (Service.generateShortCode bytes).length = 8
        ∧ ∀ c ∈ (Service.generateShortCode bytes).data, Service.isB64UrlChar c := by
  constructor
  · have hpick := pick_degraded store now rnd none _ (Or.inl rfl)
    have hiff := storeGenLoop_exhausted_iff store now rnd 10 0
    simp only [Nat.zero_add] at hiff
    simp only [storePickShortCode] at hpick
    unfold Service.CreateShortURL
    simp only [Service.expPast, Bool.false_eq_true, if_false]
    rw [hpick]
    cases hg : storeGenLoop store now rnd 10 0 with
    | error e =>
      rw [hg] at hiff
      simp only [Except.error.injEq] at hiff
      simpa using hiff
    | ok code =>
      rw [hg] at hiff
      apply iff_of_false
      · cases hc : Repo.Create store now code url uid none with
        | error e =>
          cases hcond : (strContains e.msg ("unique") || strContains e.msg ("duplicate")) <;>
            simp [hc, hcond]
        | ok p => simp [hc]
      · intro hr
        exact absurd (hiff.mpr hr) (by simp)
  · intro bytes
    refine ⟨rfl, ?_⟩
    intro c hc
    simp only [Service.generateShortCode, List.take, String.data] at hc
    simp only [List.mem_cons, List.not_mem_nil, or_false] at hc
    rcases hc with h | h | h | h | h | h | h | h <;> rw [h] <;> exact isB64_b64Char _

/-- A store in which the code AAAAAAAA (the generated code of all-zero
random bytes) is live. -/
def c9Store : Store :=
  { rows := [{ id := 1, shortCode := "AAAAAAAA", originalURL := "https://x",
               userID := none, clickCount := 0, createdAt := 0, expiresAt := none }],
    clicks := [], nextId := 2 }

/-- Witness for C9: with all-zero random bytes every generated code is the
taken AAAAAAAA, so allocation without a custom code exhausts its 10
attempts. -/
theorem c9_generation_exhaustion_witness :
    (Service.CreateShortURL ⟨c9Store, .absent⟩ 0 rnd0
        ⟨"https://t", none, none⟩ none ("b")).1 = .error .exhausted :=
  (c9_generation_exhaustion c9Store 0 rnd0 ("https://t") ("b") none).1.mpr (by decide)

end Generation

section Resolution

open Service

/-- Boundary lemma for the resolve contract: for a code without a live
store row (absent or expired), GetOriginalURL returns the NotFoundError
and leaves the persistent store unchanged, provided the cached resolution
snapshot for the code, when present and non-empty, is itself already
expired. The proviso does not hold in every reachable state: an expiry
update leaves the old snapshot in the cache (the missing invalidation
shown by c1_update_expiry_leaves_cache_entries), and
c5_stale_snapshot_serves_expired_link below shows the contract breaking
through exactly that gap. -/
theorem c5_resolve_missing_returns_not_found (store : Store) (cb : CacheB)
    (now : Nat) (code : String)
    (hfind : Repo.FindByShortCode store now code = .error .notFoundOrExpired)
    (hsnap : ∀ u e, cacheLookup cb (urlKey code) = some (.res u e) → u ≠ "" →
        ∃ x, e = some x ∧ x < now) :
    (Service.GetOriginalURL ⟨store, cb⟩ now code).1 = .error .notFoundOrExpired
    ∧ (Service.GetOriginalURL ⟨store, cb⟩ now code).2.store = store := by
  cases cb with
  | absent => simp [GetOriginalURL, resolveFromStore, hfind]
  | failing => simp [GetOriginalURL, resolveFromStore, hfind]
  | real m =>
    cases hl : (m.find? (fun e => e.1 == urlKey code)).map (fun e => e.2) with
    | none => simp [GetOriginalURL, resolveFromStore, hl, hfind]
    | some v =>
      cases v with
      | str s => simp [GetOriginalURL, resolveFromStore, hl, hfind]
      | res u exp =>
        by_cases hu : u = ""
        · subst hu
          simp [GetOriginalURL, resolveFromStore, hl, hfind]
        · have hlk : cacheLookup (.real m) (urlKey code) = some (CVal.res u exp) := by
            simpa [cacheLookup] using hl
          obtain ⟨x, hx, hlt⟩ := hsnap u exp hlk hu
          subst hx
          simp [GetOriginalURL, resolveFromStore, hl, hu, hlt, hfind]

/-- Instance of the boundary lemma: resolving the never-created code zzz
on an empty store with no cache is the NotFoundError and changes
nothing. -/
theorem c5_resolve_missing_returns_not_found_witness :
    (Service.GetOriginalURL ⟨emptyStore, .absent⟩ 0 ("zzz")).1 = .error .notFoundOrExpired
    ∧ (Service.GetOriginalURL ⟨emptyStore, .absent⟩ 0 ("zzz")).2.store = emptyStore :=
  c5_resolve_missing_returns_not_found emptyStore .absent 0 ("zzz") (by decide)
    (fun _ _ h _ => Option.noConfusion h)

/-- The state a successful allocation of abc with expiry 1000 by u1 leaves
behind on an empty store with a working empty cache: the row, the taken
sentinel and the cached resolution snapshot. -/
def c5St1 : SvcState :=
  (Service.CreateShortURL ⟨emptyStore, .real []⟩ 0 rnd0
    ⟨"https://t", some 1000, some ("abc")⟩ (some ("u1")) ("b")).2

/-- The state after the owner then shortens the expiry of abc to 500 at
time 100: the row now expires at 500, the cached snapshot still says
1000. -/
def c5St2 : SvcState :=
  (Service.UpdateExpiresAt c5St1 100 ("abc") (some ("u1")) (some 500)).2

/-- C5: the claim that resolving an expired code always returns
NotFoundError and never mutates click count or event log is broken by the
code on a reachable state: allocate abc with expiry 1000 (the allocation
succeeds and caches the snapshot), shorten the expiry to 500 through
UpdateExpiresAt (it succeeds and, as C1 shows, leaves the snapshot), then
resolve abc at time 700. The row is expired -- the store lookup itself
says NotFoundError -- yet GetOriginalURL serves the stale cached target,
increments the click count and appends a click event. -/
theorem c5_stale_snapshot_serves_expired_link :
    (Service.CreateShortURL ⟨emptyStore, .real []⟩ 0 rnd0
        ⟨"https://t", some 1000, some ("abc")⟩ (some ("u1")) ("b")).1
      = .ok ⟨"abc", "https://t", "b" ++ "/" ++ "abc", some 1000, 0⟩
    ∧ (Service.UpdateExpiresAt c5St1 100 ("abc") (some ("u1")) (some 500)).1 = .ok ()
    ∧ Repo.FindByShortCode c5St2.store 700 ("abc") = .error .notFoundOrExpired
    ∧ c5St2.store.clicks = []
    ∧ (Service.GetOriginalURL c5St2 700 ("abc")).1 = .ok ("https://t")
    ∧ ((Service.GetOriginalURL c5St2 700 ("abc")).2.store.rows.map
        fun r => r.clickCount) = [1]
    ∧ (Service.GetOriginalURL c5St2 700 ("abc")).2.store.clicks
      = [{ urlId := 1, clickedAt := 700 }] := by
  decide

end Resolution

section CacheAside

open Service

/-- A passing validation implies the charset holds and the code is
non-empty. -/
theorem validate_none_facts (s : String) (h : validateCustomShortCode s = none) :
    s.data.all isCodeChar = true ∧ (s == "") = false := by
  by_cases h1 : s.utf8ByteSize < 3
  · simp [validateCustomShortCode, h1] at h
  · by_cases h2 : s.utf8ByteSize > 20
    · simp [validateCustomShortCode, h1, h2] at h
    · by_cases h3 : (s.data.isEmpty || !s.data.all isCodeChar) = true
      · simp [validateCustomShortCode, h1, h2, h3] at h
      · constructor
        · cases hb : s.data.all isCodeChar with
          | true => rfl
          | false => exact absurd (by simp [hb]) h3
        · have hne : s ≠ "" := by
            intro he
            exact h1 (by rw [he]; decide)
          simp [hne]

/-- A code character is never TrimSpace whitespace. -/
theorem codeChar_not_space (c : Char) (h : isCodeChar c = true) :
    goIsSpace c = false := by
  unfold isCodeChar at h
  unfold goIsSpace
  simp only [Bool.or_eq_true, Bool.and_eq_true, decide_eq_true_eq,
    beq_iff_eq] at h
  simp only [Bool.or_eq_false_iff, beq_eq_false_iff_ne, ne_eq]
  omega

/-- dropWhile whitespace is the identity on charset-clean lists. -/
theorem dropWhile_of_codeChars (l : List Char) (h : ∀ c ∈ l, isCodeChar c = true) :
    l.dropWhile goIsSpace = l := by
  cases l with
  | nil => rfl
  | cons a as =>
    rw [List.dropWhile_cons, codeChar_not_space a (h a (by simp))]
    simp

/-- TrimSpace is the identity on charset-valid codes. -/
theorem trimSpace_of_codeChars (s : String) (h : s.data.all isCodeChar = true) :
    trimSpace s = s := by
  have h' : ∀ c ∈ s.data, isCodeChar c = true := by
    simpa [List.all_eq_true] using h
  have h1 : s.data.dropWhile goIsSpace = s.data := dropWhile_of_codeChars _ h'
  have h2 : s.data.reverse.dropWhile goIsSpace = s.data.reverse :=
    dropWhile_of_codeChars _ (fun c hc => h' c (List.mem_reverse.mp hc))
  unfold trimSpace
  rw [h1, h2, List.reverse_reverse]

/-- Looking a key up right after deleting it finds nothing. -/
theorem cacheLookup_delete_self (cb : CacheB) (k : String) :
    cacheLookup (cacheDelete cb k) k = none := by
  cases cb with
  | absent => rfl
  | failing => rfl
  | real m =>
    have hfind : (m.filter fun e => e.1 != k).find? (fun e => e.1 == k) = none := by
      rw [List.find?_eq_none]
      intro x hx
      have hmem := List.of_mem_filter hx
      simp only [bne_iff_ne, ne_eq] at hmem
      simp [hmem]
    simp [cacheDelete, cacheLookup, hfind]

/-- After filtering a code out of the rows, no find? on that code
succeeds. -/
theorem find?_filter_code_none (l : List URL) (code : String) (p : URL → Bool) :
    ((l.filter fun r => !(r.shortCode == code)).find?
      (fun r => r.shortCode == code && p r)) = none := by
  rw [List.find?_eq_none]
  intro x hx
  have hmem := List.of_mem_filter hx
  simp only [Bool.not_eq_true'] at hmem
  simp [hmem]

/-- Filtering with a predicate some member fails strictly shrinks the
list. -/
theorem length_filter_lt {α : Type} (l : List α) (q : α → Bool) (x : α)
    (hx : x ∈ l) (h : q x = false) : (l.filter q).length < l.length := by
  rcases List.mem_iff_append.mp hx with ⟨s, t, rfl⟩
  simp [List.filter_append, List.filter_cons, h]
  have h1 := List.length_filter_le q s
  have h2 := List.length_filter_le q t
  omega

/-- The click recorder never loses a row of the given code. -/
theorem recordClick_keeps_code (store : Store) (now : Nat) (code : String)
    (hex : ∃ x ∈ store.rows, (x.shortCode == code) = true) :
    ∃ y ∈ (Service.recordClick store now code).rows, (y.shortCode == code) = true := by
  unfold Service.recordClick Repo.IncrementClickCount
  cases hf : store.rows.find? (fun r => r.shortCode == code) with
  | none => simpa using hex
  | some r =>
    obtain ⟨x, hx, hxc⟩ := hex
    refine ⟨{ x with clickCount := x.clickCount + 1 },
      List.mem_map.mpr ⟨x, hx, ?_⟩, ?_⟩
    · simp [hxc]
    · simpa using hxc

/-- Resolution through the store: with no cached resolution for the code
and a live row, GetOriginalURL answers the row target, records the click
and repopulates the cache. -/
theorem resolve_via_store (store : Store) (cb : CacheB) (now : Nat) (code : String)
    (row : URL)
    (hfind : Repo.FindByShortCode store now code = .ok row)
    (hurl : cacheLookup cb (urlKey code) = none) :
    Service.GetOriginalURL ⟨store, cb⟩ now code
      = (.ok row.originalURL,
         ⟨Service.recordClick store now code,
          cacheSet cb (urlKey code) (.res row.originalURL row.expiresAt)⟩) := by
  have hbody : Service.resolveFromStore ⟨store, cb⟩ now code
      = (.ok row.originalURL,
         ⟨Service.recordClick store now code,
          cacheSet cb (urlKey code) (.res row.originalURL row.expiresAt)⟩) := by
    unfold Service.resolveFromStore Service.recordClick
    rw [hfind]
  cases cb with
  | absent => simpa [Service.GetOriginalURL] using hbody
  | failing => simpa [Service.GetOriginalURL] using hbody
  | real m =>
    have hl : (m.find? (fun e => e.1 == urlKey code)).map (fun e => e.2) = none := by
      simpa [cacheLookup] using hurl
    simpa [Service.GetOriginalURL, hl] using hbody

/-- DeleteURL without an owner removes every row of the code, reports
success, and evicts both cache keys. -/
theorem deleteURL_all_of_code (st1 : SvcState) (code : String) (x : URL)
    (hx : x ∈ st1.store.rows) (hxc : (x.shortCode == code) = true) :
    (Service.DeleteURL st1 code none).1 = .ok ()
    ∧ (Service.DeleteURL st1 code none).2.store.rows
        = st1.store.rows.filter (fun r => !(r.shortCode == code))
    ∧ (Service.DeleteURL st1 code none).2.cache
        = cacheDelete (cacheDelete st1.cache (urlKey code)) (sentinelKey code) := by
  have hlt := length_filter_lt st1.store.rows (fun r => !(r.shortCode == code)) x hx
    (by simp [hxc])
  have hne : ((st1.store.rows.filter fun r => !(r.shortCode == code)).length
      == st1.store.rows.length) = false := by
    simp only [beq_eq_false_iff_ne, ne_eq]
    exact Nat.ne_of_lt hlt
  unfold Service.DeleteURL Repo.Delete
  simp only [Bool.and_true, hne]
  refine ⟨rfl, rfl, rfl⟩

/-- The availability check on a state whose store has no row of the code
and whose cache holds no taken sentinel answers available and writes the
available sentinel. -/
theorem check_fresh (st2 : SvcState) (now : Nat) (code : String)
    (hnorow : ∀ r ∈ st2.store.rows, (r.shortCode == code) = false)
    (hsent : cacheLookup st2.cache (sentinelKey code) ≠ some (.str ("taken"))) :
    Service.checkShortCodeAvailability st2 now code
      = (.ok true,
         ⟨st2.store, cacheSet st2.cache (sentinelKey code) (.str ("available"))⟩) := by
  have hfind : Repo.FindByShortCode st2.store now code = .error .notFoundOrExpired := by
    unfold Repo.FindByShortCode
    rw [List.find?_eq_none.mpr]
    intro x hx
    simp [hnorow x hx]
  rcases hst : st2 with ⟨store, cb⟩
  rw [hst] at hfind hsent
  cases cb with
  | absent => simp [Service.checkShortCodeAvailability, hfind, Err.msg]
  | failing => simp [Service.checkShortCodeAvailability, hfind, Err.msg]
  | real m =>
    cases hany : m.any (fun e => e.1 == sentinelKey code) with
    | false => simp [Service.checkShortCodeAvailability, hany, hfind, Err.msg]
    | true =>
      cases hl : (m.find? (fun e => e.1 == sentinelKey code)).map (fun e => e.2) with
      | none => simp [Service.checkShortCodeAvailability, hany, hl, hfind, Err.msg]
      | some v =>
        cases v with
        | res u e => simp [Service.checkShortCodeAvailability, hany, hl, hfind, Err.msg]
        | str s =>
          have hs : ¬ s = "taken" := by
            intro he
            apply hsent
            simp [cacheLookup, hl, he]
          simp [Service.checkShortCodeAvailability, hany, hl, hs, hfind, Err.msg]

/-- Allocating a valid fresh custom code on a state without that code
succeeds and returns exactly the requested code and target. -/
theorem create_custom_fresh (st2 : SvcState) (now : Nat) (rnd : Nat → List Nat)
    (code target base : String) (uid : Option String)
    (hval : validateCustomShortCode code = none)
    (hlen : code.length ≤ 10)
    (hnorow : ∀ r ∈ st2.store.rows, (r.shortCode == code) = false)
    (hsent : cacheLookup st2.cache (sentinelKey code) ≠ some (.str ("taken"))) :
    (Service.CreateShortURL st2 now rnd ⟨target, none, some code⟩ uid base).1
      = .ok ⟨code, target, base ++ "/" ++ code, none, now⟩ := by
  have hne : (code == "") = false := (validate_none_facts code hval).2
  have htrim : trimSpace code = code :=
    trimSpace_of_codeChars code (validate_none_facts code hval).1
  have hcheck := check_fresh st2 now code hnorow hsent
  have hany : (st2.store.rows.any fun r => r.shortCode == code) = false := by
    rw [List.any_eq_false]
    intro x hx
    simp [hnorow x hx]
  unfold Service.CreateShortURL Service.pickShortCode
  simp only [Service.expPast, Bool.false_eq_true, if_false, hne, htrim, hval, hcheck]
  unfold Repo.Create
  simp [Nat.not_lt.mpr hlen, hany]

/-- C3: for every live code (its row found by resolution, its code valid
for custom allocation and within the column width, no cached resolution
yet), resolving it, then deleting it through DeleteURL, then allocating
it as a custom code succeeds end to end: the resolve returns the stored
target, the delete succeeds, and the allocation returns the code again --
no stale taken sentinel survives the deletion. -/
theorem c3_resolve_delete_reallocate (store : Store) (cb : CacheB) (now : Nat)
    (code target base : String) (rnd : Nat → List Nat) (uid2 : Option String)
    (row : URL)
    (hval : Service.validateCustomShortCode code = none)
    (hlen : code.length ≤ 10)
    (hfind : Repo.FindByShortCode store now code = .ok row)
    (hurl : cacheLookup cb (urlKey code) = none) :
    (Service.GetOriginalURL ⟨store, cb⟩ now code).1 = .ok row.originalURL
    ∧ (Service.DeleteURL (Service.GetOriginalURL ⟨store, cb⟩ now code).2 code none).1
        = .ok ()
    ∧ (Service.CreateShortURL
        (Service.DeleteURL (Service.GetOriginalURL ⟨store, cb⟩ now code).2 code none).2
        now rnd ⟨target, none, some code⟩ uid2 base).1
      = .ok ⟨code, target, base ++ "/" ++ code, none, now⟩ := by
  have h1 := resolve_via_store store cb now code row hfind hurl
  have hf' : store.rows.find? (fun r => r.shortCode == code && Repo.isLive now r)
      = some row := by
    unfold Repo.FindByShortCode at hfind
    cases hf : store.rows.find? (fun r => r.shortCode == code && Repo.isLive now r) with
    | none => rw [hf] at hfind; exact absurd hfind (by simp)
    | some r => rw [hf] at hfind; simpa using hfind
  have hrowc : (row.shortCode == code) = true :=
    (Bool.and_eq_true _ _ ▸ List.find?_some hf').1
  have hex : ∃ x ∈ store.rows, (x.shortCode == code) = true :=
    ⟨row, List.mem_of_find?_eq_some hf', hrowc⟩
  have hex1 := recordClick_keeps_code store now code hex
  obtain ⟨y, hy, hyc⟩ := hex1
  rw [h1]
  have hdel := deleteURL_all_of_code
    ⟨Service.recordClick store now code,
     cacheSet cb (urlKey code) (.res row.originalURL row.expiresAt)⟩ code y hy hyc
  obtain ⟨hd1, hd2, hd3⟩ := hdel
  refine ⟨rfl, hd1, ?_⟩
  apply create_custom_fresh _ now rnd code target base uid2 hval hlen
  · intro r hr
    rw [hd2] at hr
    have hmem := List.of_mem_filter hr
    simpa [Bool.not_eq_true'] using hmem
  · rw [hd3]
    rw [cacheLookup_delete_self]
    simp

/-- A store with one live link abc, anonymous, never expiring. -/
def c3Store : Store :=
  { rows := [{ id := 1, shortCode := "abc", originalURL := "https://t",
               userID := none, clickCount := 0, createdAt := 0, expiresAt := none }],
    clicks := [], nextId := 2 }

/-- Witness for C3: resolve abc, delete it, allocate abc again, on a
concrete store with no cache. -/
theorem c3_resolve_delete_reallocate_witness :
    (Service.GetOriginalURL ⟨c3Store, .absent⟩ 0 ("abc")).1 = .ok ("https://t")
    ∧ (Service.DeleteURL
        (Service.GetOriginalURL ⟨c3Store, .absent⟩ 0 ("abc")).2 ("abc") none).1
      = .ok ()
    ∧ (Service.CreateShortURL
        (Service.DeleteURL
          (Service.GetOriginalURL ⟨c3Store, .absent⟩ 0 ("abc")).2 ("abc") none).2
        0 rnd0 ⟨"https://u", none, some ("abc")⟩ none ("b")).1
      = .ok ⟨"abc", "https://u", "b" ++ "/" ++ "abc", none, 0⟩ :=
  c3_resolve_delete_reallocate c3Store .absent 0 ("abc") ("https://u") ("b") rnd0 none
    ⟨1, "abc", "https://t", none, 0, 0, none⟩
    (by decide) (by decide) (by decide) rfl

end CacheAside

section RoundTrip

open Service

/-- find? skips a prefix in which it finds nothing. -/
theorem find?_append_of_none {α : Type} (l1 l2 : List α) (p : α → Bool)
    (h : l1.find? p = none) : (l1 ++ l2).find? p = l2.find? p := by
  induction l1 with
  | nil => simp
  | cons a as ih =>
    rw [List.cons_append]
    rw [List.find?_cons] at h ⊢
    cases hp : p a
    · simp only [hp] at h ⊢
      exact ih h
    · simp [hp] at h

/-- A freshly inserted live row is found by FindByShortCode. -/
theorem find_inserted (l : List URL) (row : URL) (code : String) (now : Nat)
    (hany : (l.any fun r => r.shortCode == code) = false)
    (hc : (row.shortCode == code) = true)
    (hlive : Repo.isLive now row = true) :
    (l ++ [row]).find? (fun r => r.shortCode == code && Repo.isLive now r)
      = some row := by
  rw [find?_append_of_none]
  · rw [List.find?_cons]
    simp [hc, hlive]
  · rw [List.find?_eq_none]
    intro x hx
    have := List.any_eq_false.mp hany x hx
    simp_all

/-- Setting a key then looking it up yields the new value (on a working
cache). -/
theorem cacheLookup_set_self (m : CMap) (k : String) (v : CVal) :
    cacheLookup (cacheSet (.real m) k v) k = some v := by
  simp [cacheSet, cacheLookup, List.find?_cons]

/-- C8 counterexample: an allocation with expiresAt one second in the past
is accepted (the 2-second clock-skew allowance), yet resolving the
returned code at the very same instant yields NotFoundError, not the
target. The claim as stated is therefore false. -/
theorem c8_roundtrip_counterexample :
    (Service.CreateShortURL ⟨emptyStore, .absent⟩ 1000 rnd0
        ⟨"https://t", some 999, some ("abc")⟩ none ("b")).1
      = .ok ⟨"abc", "https://t", "b" ++ "/" ++ "abc", some 999, 1000⟩
    ∧ (Service.GetOriginalURL
        (Service.CreateShortURL ⟨emptyStore, .absent⟩ 1000 rnd0
          ⟨"https://t", some 999, some ("abc")⟩ none ("b")).2 1000 ("abc")).1
      = .error .notFoundOrExpired := by
  decide

/-- C8 amended: for every target and every successful allocation whose
requested expiry is absent or still strictly in the future at resolution
time, immediately resolving the returned short code returns exactly the
requested target. -/
theorem c8_roundtrip_amended (store : Store) (cb : CacheB) (now : Nat)
    (rnd : Nat → List Nat) (req : CreateURLRequest) (uid : Option String)
    (base : String) (resp : CreateURLResponse) (st1 : SvcState)
    (hcreate : Service.CreateShortURL ⟨store, cb⟩ now rnd req uid base
      = (.ok resp, st1))
    (hexp : req.expiresAt = none ∨ ∃ e, req.expiresAt = some e ∧ now < e) :
    (Service.GetOriginalURL st1 now resp.shortCode).1 = .ok req.url := by
  have hpe : expPast req.expiresAt now = false := by
    rcases hexp with h | ⟨e, he, hlt⟩
    · rw [h]; rfl
    · rw [he]
      unfold expPast
      simp only [decide_eq_false_iff_not]
      omega
  unfold Service.CreateShortURL at hcreate
  simp only [hpe, Bool.false_eq_true, if_false] at hcreate
  cases hp : pickShortCode ⟨store, cb⟩ now rnd req.shortCode with
  | mk r st' =>
    rw [hp] at hcreate
    cases r with
    | error e => simp at hcreate
    | ok code =>
      by_cases hlen : code.length > 10
      · have hmsg : (strContains (Err.valueTooLong.msg) ("unique")
            || strContains (Err.valueTooLong.msg) ("duplicate")) = false := by decide
        simp only [Repo.Create, if_pos hlen, hmsg, Bool.false_eq_true, if_false] at hcreate
        simp at hcreate
      · cases hany : st'.store.rows.any (fun r => r.shortCode == code) with
        | true =>
          have hmsg : (strContains (Err.uniqueViolation.msg) ("unique")
              || strContains (Err.uniqueViolation.msg) ("duplicate")) = true := by decide
          simp only [Repo.Create, if_neg hlen, hany, Bool.true_eq_false,
            if_true, hmsg] at hcreate
          simp at hcreate
        | false =>
          simp only [Repo.Create, if_neg hlen, hany, Bool.false_eq_true,
            if_false] at hcreate
          rw [Prod.mk.injEq] at hcreate
          obtain ⟨hresp, hst1⟩ := hcreate
          simp only [Except.ok.injEq] at hresp
          subst hresp
          subst hst1
          have hlive : Repo.isLive now
              ({ id := st'.store.nextId, shortCode := code, originalURL := req.url,
                 userID := uid, clickCount := 0, createdAt := now,
                 expiresAt := req.expiresAt } : URL) = true := by
            unfold Repo.isLive
            rcases hexp with h | ⟨e, he, hlt⟩
            · rw [h]
            · rw [he]
              simpa using hlt
          have hfind2 : Repo.FindByShortCode
              { rows := st'.store.rows ++
                  [{ id := st'.store.nextId, shortCode := code,
                     originalURL := req.url, userID := uid, clickCount := 0,
                     createdAt := now, expiresAt := req.expiresAt }],
                clicks := st'.store.clicks, nextId := st'.store.nextId + 1 } now code
              = .ok { id := st'.store.nextId, shortCode := code,
                      originalURL := req.url, userID := uid, clickCount := 0,
                      createdAt := now, expiresAt := req.expiresAt } := by
            unfold Repo.FindByShortCode
            rw [find_inserted _ _ _ _ hany (by simp) hlive]
          cases hcache : st'.cache with
          | absent =>
            simp only [hcache, cacheSet_absent]
            simp [Service.GetOriginalURL, Service.resolveFromStore, hfind2]
          | failing =>
            simp only [hcache, cacheSet_failing]
            simp [Service.GetOriginalURL, Service.resolveFromStore, hfind2]
          | real m =>
            by_cases hu : req.url = ""
            · rw [hu] at hfind2
              simp [hcache, cacheSet, Service.GetOriginalURL, List.find?_cons,
                hu, Service.resolveFromStore, hfind2]
            · have hnl : (req.url == "") = false := by simp [hu]
              rcases hexp with h | ⟨e, he, hlt⟩
              · simp [hcache, cacheSet, Service.GetOriginalURL, List.find?_cons,
                  hnl, h]
              · have hge : ¬ (e < now) := by omega
                simp [hcache, cacheSet, Service.GetOriginalURL, List.find?_cons,
                  hnl, he, hge]

/-- The state a successful allocation of abc leaves behind on an empty
store with no cache. -/
def c8St1 : SvcState :=
  ⟨{ rows := [{ id := 1, shortCode := "abc", originalURL := "https://t",
                userID := none, clickCount := 0, createdAt := 1000,
                expiresAt := none }],
     clicks := [], nextId := 2 }, .absent⟩

/-- Witness for the amended C8: allocating abc without expiry and
resolving it at the same instant returns the target. -/
theorem c8_roundtrip_amended_witness :
    (Service.GetOriginalURL c8St1 1000 ("abc")).1 = .ok ("https://t") :=
  c8_roundtrip_amended emptyStore .absent 1000 rnd0
    ⟨"https://t", none, some ("abc")⟩ none ("b")
    ⟨"abc", "https://t", "b/abc", none, 1000⟩ c8St1 (by decide) (Or.inl rfl)

end RoundTrip

section Trimming

open Service

/-- C10: allocation trims the supplied custom code before validating and
using it: allocating with two-space-padded abc behaves identically to
allocating with abc in every state, and a whitespace-only custom code
always fails validation as too short (nothing is stored, the state is
untouched). -/
theorem c10_custom_code_trimmed :
    (∀ (st : SvcState) (now : Nat) (rnd : Nat → List Nat) (url : String)
        (exp : Option Nat) (uid : Option String) (base : String),
      Service.CreateShortURL st now rnd ⟨url, exp, some ("  abc  ")⟩ uid base
        = Service.CreateShortURL st now rnd ⟨url, exp, some ("abc")⟩ uid base)
    ∧ (∀ (st : SvcState) (now : Nat) (rnd : Nat → List Nat) (url : String)
        (exp : Option Nat) (uid : Option String) (base : String) (s : String),
      Service.expPast exp now = false → s ≠ "" →
      (∀ c ∈ s.data, Service.goIsSpace c = true) →
      Service.CreateShortURL st now rnd ⟨url, exp, some s⟩ uid base
        = (.error .codeTooShort, st)) := by
  constructor
  · intro st now rnd url exp uid base
    rfl
  · intro st now rnd url exp uid base s hpe hs hsp
    have hdropAll : ∀ l : List Char, (∀ c ∈ l, Service.goIsSpace c = true) →
        l.dropWhile Service.goIsSpace = [] := by
      intro l
      induction l with
      | nil => intro _; rfl
      | cons a as ih =>
        intro h
        rw [List.dropWhile_cons]
        rw [h a (by simp)]
        simpa using ih (fun c hc => h c (List.mem_cons_of_mem a hc))
    have htrim : Service.trimSpace s = "" := by
      unfold Service.trimSpace
      rw [hdropAll s.data hsp]
      rfl
    have hs' : (s == "") = false := by simp [hs]
    have hv : Service.validateCustomShortCode "" = some .codeTooShort := by decide
    unfold Service.CreateShortURL Service.pickShortCode
    simp [hpe, hs', htrim, hv]

/-- Witness for C10: a three-space custom code fails as too short and
leaves the state untouched. -/
theorem c10_custom_code_trimmed_witness :
    Service.CreateShortURL ⟨emptyStore, .absent⟩ 0 rnd0
        ⟨"https://t", none, some ("   ")⟩ none ("b")
      = (.error .codeTooShort, ⟨emptyStore, .absent⟩) :=
  c10_custom_code_trimmed.2 ⟨emptyStore, .absent⟩ 0 rnd0 ("https://t") none none ("b")
    ("   ") rfl (by decide) (by decide)

end Trimming

end Shortly
